import Mathlib

/-
Verification of the BSS-Batch-Manager job-lifecycle code
(remote driver: remote_management/batch_submission_script.py,
local controller: utils/batch_submit.py).

Shallow embedding conventions:
  * a filesystem is a finite set of file paths; a path is a list of
    name components; a directory exists exactly when some recorded file
    strictly extends its path;
  * Python exceptions are modelled with an explicit error type, and
    functions that can raise return Except or record the error;
  * wall-clock timestamps are modelled as integers (seconds);
  * queue names and directory names are Lean strings, and the Python
    string operations used by the code are re-implemented over the
    underlying character lists so that they evaluate by decide.
-/

namespace BSS

/-- Python exceptions that the modelled code can raise. -/
inductive PyErr where
  | indexError
  | valueError
  | zeroDivisionError
  | typeError
  deriving DecidableEq, Repr

/-- EXEC_NAME constant of batch_submission_script.py. -/
def EXEC_NAME : String := "bond_switch_simulator.exe"

/-- TIMEOUT constant of batch_submission_script.py: 30 days in seconds. -/
def TIMEOUT : Nat := 30 * 24 * 60 * 60

/-- MAX_PARALLEL_JOBS constant of batch_submission_script.py. -/
def MAX_PARALLEL_JOBS : Nat := 500

/-- ASSUMPTION_TIME constant of batch_submission_script.py (seconds). -/
def ASSUMPTION_TIME : Int := 10

/-- The fixed sleep used by the admission-control poll and the drain loop. -/
def POLL_INTERVAL : Nat := 5

/-- cleaning_interval local constant of submit_batch. -/
def CLEANING_INTERVAL : Nat := 5

/-! ## Filesystem model -/

/-- A filesystem path, as a list of name components. -/
abbrev FPath := List String

/-- A filesystem state: the finite set of regular files present.
Directories are implicit: a directory exists exactly when some file
strictly extends its path. -/
abbrev Fs := Finset FPath

/-- Model of `path.is_dir()`: some recorded file strictly extends `p`
(stated through a filter cardinality so that it evaluates cheaply). -/
def isDir (fs : Fs) (p : FPath) : Prop :=
  0 < (fs.filter (fun q => p <+: q ∧ p ≠ q)).card

instance (fs : Fs) (p : FPath) : Decidable (isDir fs p) :=
  Nat.decLt 0 (fs.filter (fun q => p <+: q ∧ p ≠ q)).card

/-- Model of `path.exists()` for either a file or a directory rooted at `p`:
some recorded file has `p` as a (possibly improper) prefix. -/
def existsUnder (fs : Fs) (p : FPath) : Prop :=
  0 < (fs.filter (fun q => p <+: q)).card

instance (fs : Fs) (p : FPath) : Decidable (existsUnder fs p) :=
  Nat.decLt 0 (fs.filter (fun q => p <+: q)).card

/-- Model of safe_remove (batch_submission_script.py lines 133-140):
remove a directory tree with rmtree, or unlink a single file; a
FileNotFoundError is caught and ignored, which in the model makes the
absent case a no-op. -/
def safe_remove (fs : Fs) (p : FPath) : Fs :=
  if isDir fs p then fs.filter (fun q => ¬ p <+: q) else fs.erase p

/-- Renaming map used by safe_move: a file under the source is re-rooted
at the destination, every other file is untouched. -/
def moveMap (s d : FPath) (x : FPath) : FPath :=
  if s <+: x then d ++ x.drop s.length else x

/-- Model of safe_move (batch_submission_script.py lines 143-147):
shutil.move re-roots the source tree at the destination path (POSIX
rename semantics, silently replacing a same-named destination file);
a FileNotFoundError on a missing source is caught and ignored. -/
def safe_move (fs : Fs) (s d : FPath) : Fs :=
  if existsUnder fs s then fs.image (moveMap s d) else fs

/-- The two relocations at the start of clean_job (lines 172-174): move
bss_parameters.txt out of input_files, then relocate the qsub log to
qsub.log when one was found. -/
def clean_job_moves (fs : Fs) (jobPath : FPath) (qsubOutput : Option FPath) : Fs :=
  match qsubOutput with
  | some q =>
      safe_move
        (safe_move fs (jobPath ++ ["input_files", "bss_parameters.txt"])
          (jobPath ++ ["bss_parameters.txt"]))
        q (jobPath ++ ["qsub.log"])
  | none =>
      safe_move fs (jobPath ++ ["input_files", "bss_parameters.txt"])
        (jobPath ++ ["bss_parameters.txt"])

/-- The four deletions at the end of clean_job (lines 176-179): remove the
input_files tree, the executable copy, the generated submission script and
the oversized lammps.log. -/
def clean_job_removals (fs : Fs) (jobPath : FPath) : Fs :=
  safe_remove
    (safe_remove
      (safe_remove
        (safe_remove fs (jobPath ++ ["input_files"]))
        (jobPath ++ [EXEC_NAME]))
      (jobPath ++ ["job_submission_script.sh"]))
    (jobPath ++ ["output_files", "lammps.log"])

/-- Model of clean_job (batch_submission_script.py lines 163-179):
relocate the parameter file and the qsub log, then delete the scratch
artifacts, each through the FileNotFoundError-tolerant safe_remove and
safe_move wrappers. -/
def clean_job (fs : Fs) (jobPath : FPath) (qsubOutput : Option FPath) : Fs :=
  clean_job_removals (clean_job_moves fs jobPath qsubOutput) jobPath

/-! ## Python string primitives

The Python string operations used by the scripts are re-implemented over
the underlying character lists, so that concrete runs evaluate by decide. -/

/-- Split a character list at every character satisfying `pred`, keeping
empty segments (the behaviour of repeated separators). -/
def pySplitPred (pred : Char → Bool) (l : List Char) : List (List Char) :=
  match l with
  | [] => [[]]
  | c :: rest =>
    match pySplitPred pred rest with
    | [] => [[]]
    | w :: ws => if pred c then [] :: w :: ws else (c :: w) :: ws

/-- Model of Python str.split() with no argument: split on whitespace and
drop empty fields. -/
def pyFields (s : String) : List String :=
  ((pySplitPred (fun c => c.isWhitespace) s.data).filter (fun w => w ≠ [])).map String.mk

/-- Model of Python str.strip(). -/
def pyStrip (s : String) : String :=
  String.mk (((s.data.dropWhile Char.isWhitespace).reverse.dropWhile Char.isWhitespace).reverse)

/-- Model of Python str.startswith. -/
def pyStartsWith (s pre : String) : Bool :=
  pre.data.isPrefixOf s.data

/-- Numeric value of a digit list. -/
def charsNat (w : List Char) : Nat :=
  w.foldl (fun a c => a * 10 + (c.toNat - 48)) 0

/-- Model of Python int(str): an optional sign followed by digits
(surrounding whitespace and underscore separators are not modelled). -/
def pyInt? (s : String) : Option Int :=
  match s.data with
  | [] => none
  | '-' :: ds =>
    if ds ≠ [] ∧ ds.all Char.isDigit then some (-(charsNat ds : Int)) else none
  | '+' :: ds =>
    if ds ≠ [] ∧ ds.all Char.isDigit then some (charsNat ds : Int) else none
  | ds =>
    if ds.all Char.isDigit then some (charsNat ds : Int) else none

/-- One to `maxLen` digit characters. -/
def digitsLen (w : List Char) (maxLen : Nat) : Bool :=
  !w.isEmpty && decide (w.length ≤ maxLen) && w.all Char.isDigit

def isLeapYear (y : Nat) : Bool :=
  (y % 4 == 0 && y % 100 != 0) || (y % 400 == 0)

def daysInMonth (m y : Nat) : Nat :=
  if m = 2 then (if isLeapYear y then 29 else 28)
  else if m = 4 ∨ m = 6 ∨ m = 9 ∨ m = 11 then 30
  else 31

/-- Validation model of datetime.strptime(s, "%m/%d/%Y"): three slash-joined
digit groups forming a calendar-valid month/day/year. -/
def strptimeDate (s : String) : Bool :=
  match pySplitPred (fun c => c == '/') s.data with
  | [m, d, y] =>
      digitsLen m 2 && digitsLen d 2 && digitsLen y 4 &&
      decide (1 ≤ charsNat m) && decide (charsNat m ≤ 12) &&
      decide (1 ≤ charsNat d) &&
      decide (charsNat d ≤ daysInMonth (charsNat m) (charsNat y)) &&
      decide (1 ≤ charsNat y)
  | _ => false

/-- Validation model of datetime.strptime(s, "%H:%M:%S"): three colon-joined
digit groups forming a valid time of day. -/
def strptimeTime (s : String) : Bool :=
  match pySplitPred (fun c => c == ':') s.data with
  | [h, m, sec] =>
      digitsLen h 2 && digitsLen m 2 && digitsLen sec 2 &&
      decide (charsNat h ≤ 23) && decide (charsNat m ≤ 59) &&
      decide (charsNat sec ≤ 59)
  | _ => false

/-! ## Queue-status parsing (import_qstat) -/

/-- One parsed record of the queue snapshot: job id, full job name, state
column and the submit date/time columns (kept as validated text). -/
structure QstatEntry where
  jobId : Int
  name : String
  status : String
  startDate : String
  startTime : String
  deriving DecidableEq, Repr

/-- Recursive core of the import_qstat model. The `pending` argument holds
the data of the job-ID line whose full-jobname line has not arrived yet,
mirroring the parity of the enumerate loop in the source: the kept lines
alternate between job-ID lines and Full-jobname lines positionally. -/
def importQstatGo : List String → Option (Int × String × String × String) →
    List QstatEntry → Except PyErr (List QstatEntry)
  | [], _, acc => .ok acc.reverse
  | l :: rest, pending, acc =>
    if l.data = [] then .error .indexError
    else
      if (l.data.headD ' ').isDigit || pyStartsWith (pyStrip l) "Full jobname" then
        match pending with
        | none =>
          let fields := pyFields l
          match fields.head? with
          | none => .error .indexError
          | some f0 =>
            match pyInt? f0 with
            | none => .error .valueError
            | some id =>
              if h5 : 5 < fields.length then
                if strptimeDate fields[5] then
                  if h6 : 6 < fields.length then
                    if strptimeTime fields[6] then
                      if h4 : 4 < fields.length then
                        importQstatGo rest (some (id, fields[4], fields[5], fields[6])) acc
                      else .error .indexError
                    else .error .valueError
                  else .error .indexError
                else .error .valueError
              else .error .indexError
        | some (id, status, dateStr, timeStr) =>
          let fields := pyFields l
          if h2 : 2 < fields.length then
            importQstatGo rest none
              ({ jobId := id, name := fields[2], status := status,
                 startDate := dateStr, startTime := timeStr } :: acc)
          else .error .indexError
      else importQstatGo rest pending acc

/-- Model of import_qstat (batch_submission_script.py lines 79-109), taking
the raw stdout lines of the qstat command: keep every line whose first
character is a digit or whose stripped form starts with "Full jobname",
parse kept lines alternately as job-ID lines (columns: id, priority, name,
user, state, date, time, and more) and Full-jobname lines, and return the
entries; any malformed line raises (IndexError or ValueError), which the
caller does not catch. -/
def importQstat (rawLines : List String) : Except PyErr (List QstatEntry) :=
  importQstatGo rawLines none []

/-- Outcome classification of a whole driver run, as observed from the
process exit path of main (batch_submission_script.py lines 291-334). -/
inductive DriverOutcome where
  | abortedExit1
  | sweepContinues
  deriving DecidableEq, Repr

/-- Model of what a queue-status parse outcome does to the driver run:
import_qstat is called inside clean_finished_jobs with no surrounding
try/except, so an exception propagates through submit_batch into the
generic handler of main (lines 319-322), which logs and exits with
status 1; only a successful parse lets the polling cycle continue. -/
def qstatPollOutcome (rawLines : List String) : DriverOutcome :=
  match importQstat rawLines with
  | .error _ => .abortedExit1
  | .ok _ => .sweepContinues

/-! ## Tracked jobs and the cleanup sweep (clean_finished_jobs) -/

/-- Model of assignment into a Python dict kept as an insertion-ordered
association list with unique keys: overwrite in place, or append. -/
def pyDictInsert (d : List (String × Int)) (kv : String × Int) : List (String × Int) :=
  if d.any (fun p => p.1 = kv.1) then
    d.map (fun p => if p.1 = kv.1 then (p.1, kv.2) else p)
  else d ++ [kv]

/-- Model of Python string slicing s[n:]. -/
def pyDropStr (s : String) (n : Nat) : String :=
  String.mk (s.data.drop n)

/-- The confirmed set of clean_finished_jobs (lines 195-198): with the
assumption window enabled, only jobs tracked strictly longer than
ASSUMPTION_TIME seconds are considered; with ignore_time, every tracked
job is. -/
def confirmed_jobs (submitted : List (String × Int)) (endTime : Int)
    (ignoreTime : Bool) : List String :=
  if ¬ ignoreTime then
    (submitted.filter (fun jt => endTime - jt.2 > ASSUMPTION_TIME)).map Prod.fst
  else submitted.map Prod.fst

/-- The job names of the current queue snapshot (line 199). -/
def current_jobs (snap : List QstatEntry) : List String :=
  snap.map (fun e => e.name)

/-- finished_jobs = confirmed_jobs - current_jobs (line 200): the confirmed
tracked names that are absent from the snapshot. -/
def finished_jobs (submitted : List (String × Int)) (endTime : Int)
    (ignoreTime : Bool) (snap : List QstatEntry) : List String :=
  (confirmed_jobs submitted endTime ignoreTime).filter
    (fun j => j ∉ current_jobs snap)

/-- The qsub-output discovery of the sweep (line 204): the first entry of
the job directory whose name matches the fnmatch pattern
batchDesc_jobname.o* in directory-enumeration order. The enumeration order
of iterdir is OS-dependent, so it is an explicit oracle argument here. -/
def findQsubOutput (iterOrder : Fs → FPath → List String) (fs : Fs)
    (jobPath : FPath) (pat : String) : Option String :=
  ((iterOrder fs jobPath).filter (fun nm => pyStartsWith nm pat)).head?

/-- One iteration of the finished-jobs loop of the sweep (lines 201-209):
derive the job directory from the queue name by splicing off the batch
description and the underscore, locate the qsub output file, and clean the
job; a missing qsub output logs a warning and cleans with None. -/
def cleanOneFinished (iterOrder : Fs → FPath → List String) (fs : Fs)
    (jobsPath : FPath) (batchDesc : String) (job : String) : Fs :=
  let dirName := pyDropStr job (batchDesc.length + 1)
  let jobPath := jobsPath ++ [dirName]
  match findQsubOutput iterOrder fs jobPath (batchDesc ++ "_" ++ dirName ++ ".o") with
  | some nm => clean_job fs jobPath (some (jobPath ++ [nm]))
  | none => clean_job fs jobPath none

/-- The errored-jobs dict of the sweep (line 210): a dict comprehension
from job name to queue id over the snapshot entries in the Eqw state
(later duplicates overwrite earlier ones, as in a Python dict). -/
def errored_jobs (snap : List QstatEntry) : List (String × Int) :=
  ((snap.filter (fun e => e.status = "Eqw")).map
    (fun e => (e.name, e.jobId))).foldl pyDictInsert []

/-- Model of clean_finished_jobs (batch_submission_script.py lines
182-217). The two import_qstat calls of the body are given as the already
parsed snapshots snap1 (line 199) and snap2 (line 210); parse failures are
handled at the call boundary (see qstatPollOutcome). After cleaning the
finished jobs, the source runs

  for errored_job, id in errored_jobs.values():

which unpacks each value of the dict, an int, as a pair: the first
iteration raises TypeError, so the sweep raises whenever any snapshot
entry is in the Eqw state, and the state at the raise escapes to the
caller unobserved. When no entry is errored, the finished entries are
deleted from the tracked dict and the loop over the empty errored dict
does nothing. -/
def clean_finished_jobs (iterOrder : Fs → FPath → List String) (fs : Fs)
    (submitted : List (String × Int)) (snap1 snap2 : List QstatEntry)
    (endTime : Int) (jobsPath : FPath) (batchDesc : String)
    (ignoreTime : Bool) : Except PyErr (Fs × List (String × Int)) :=
  if (errored_jobs snap2).isEmpty then
    .ok ((finished_jobs submitted endTime ignoreTime snap1).foldl
          (fun acc j => cleanOneFinished iterOrder acc jobsPath batchDesc j) fs,
        submitted.filter
          (fun jt => jt.1 ∉ finished_jobs submitted endTime ignoreTime snap1))
  else .error .typeError

/-! ## The submission loop of submit_batch -/

/-- The marker tested on the first stdout line of qsub (line 246). -/
def unableMarker : String := "Unable to run job:"

/-- The condition of line 246: the first response line starts with the
unable-to-run marker, in which case an error is logged. -/
def submitLogsUnable (m0 : String) : Bool :=
  pyStartsWith m0 unableMarker

/-- Line 248: the job is recorded in the tracked dict under its queue name
batchDesc_jobdir with the current time; this runs unconditionally, whether
or not the submit response carried the unable-to-run marker. -/
def submitTrack (batchDesc j : String) (now : Int)
    (t : List (String × Int)) : List (String × Int) :=
  pyDictInsert t (batchDesc ++ "_" ++ j, now)

/-- The environment of one submission run: the stdout lines of the qsub
command per job directory, and the effect of a cleanup sweep on the
tracked dict when the sweep is invoked at a given counter (the rest of the
sweep state is irrelevant to the loop bookkeeping). -/
structure LoopEnv where
  qsubMessage : String → List String
  cleanEffect : Nat → List (String × Int) → List (String × Int)

/-- The observable result of the submission loop: the job directories for
which a qsub command was issued, the jobs whose response was logged with
the unable-to-run marker, the tracked dict, the counters at which the
cleanup sweep ran, the final counter, and the uncaught exception when one
was raised. -/
structure LoopRes where
  qsubbed : List String
  unableLogged : List String
  tracked : List (String × Int)
  cleanedAt : List Nat
  counter : Nat
  err : Option PyErr
  deriving DecidableEq, Repr

/-- Recursive core of the submit_batch submission loop (lines 239-255).
Each iteration: wait for admission and prepare the job (neither affects the
bookkeeping modelled here), run qsub, read the first response line
(IndexError on an empty response), log when it starts with the
unable-to-run marker but track the job unconditionally, with the iteration
counter standing in for its submission timestamp; then invoke the cleanup
sweep when counter % cleaning_interval is nonzero (Python truthiness of
line 249), and hit the progress check counter % (num_jobs // 10), which
raises ZeroDivisionError when num_jobs < 10. -/
def submitBatchLoopGo (env : LoopEnv) (batchDesc : String) (numJobs : Nat) :
    List String → Nat → List String → List String → List (String × Int) →
      List Nat → LoopRes
  | [], counter, q, u, t, c => ⟨q.reverse, u.reverse, t, c.reverse, counter, none⟩
  | j :: rest, counter, q, u, t, c =>
    match env.qsubMessage j with
    | [] => ⟨(j :: q).reverse, u.reverse, t, c.reverse, counter, some .indexError⟩
    | m0 :: _ =>
      let u1 := if submitLogsUnable m0 then j :: u else u
      let t1 := submitTrack batchDesc j counter t
      let t2 := if counter % CLEANING_INTERVAL ≠ 0 then env.cleanEffect counter t1 else t1
      let c2 := if counter % CLEANING_INTERVAL ≠ 0 then counter :: c else c
      if numJobs / 10 = 0 then
        ⟨(j :: q).reverse, u1.reverse, t2, c2.reverse, counter, some .zeroDivisionError⟩
      else submitBatchLoopGo env batchDesc numJobs rest (counter + 1) (j :: q) u1 t2 c2

/-- The submission loop of submit_batch over the job directories in
enumeration order, starting from an empty tracked dict and counter 0. -/
def submitBatchLoop (env : LoopEnv) (batchDesc : String)
    (jobs : List String) : LoopRes :=
  submitBatchLoopGo env batchDesc jobs.length jobs 0 [] [] [] []

/-- A queue environment whose qsub always answers with the rejection
marker and whose sweeps leave the tracked dict unchanged. -/
def cenvAllUnable : LoopEnv :=
  ⟨fun _ => ["Unable to run job: rejected"], fun _ t => t⟩

/-- A queue environment whose qsub always answers normally and whose
sweeps leave the tracked dict unchanged. -/
def cenvOk : LoopEnv :=
  ⟨fun _ => ["Your job has been submitted"], fun _ t => t⟩

/-- Ten job directories. -/
def jobs10 : List String :=
  ["j01", "j02", "j03", "j04", "j05", "j06", "j07", "j08", "j09", "j10"]

/-- Twelve job directories. -/
def jobs12 : List String :=
  ["j01", "j02", "j03", "j04", "j05", "j06", "j07", "j08", "j09", "j10",
   "j11", "j12"]

/-! ## The drain loop of submit_batch -/

/-- One iteration of the drain loop body (lines 263-266): when the counter
equals cleaning_interval, run the sweep and reset the counter to zero;
then increment the counter. -/
def drainStep (cleanEffect : List (String × Int) → List (String × Int))
    (st : Nat × List (String × Int)) : Nat × List (String × Int) :=
  if st.1 = CLEANING_INTERVAL then (1, cleanEffect st.2) else (st.1 + 1, st.2)

/-- The drain loop (lines 259-267): while tracked jobs remain and the
timeout budget is not exhausted, run one body iteration and sleep; fuel
counts the remaining 5-second poll ticks of the 30-day budget. -/
def drainLoop (cleanEffect : List (String × Int) → List (String × Int)) :
    Nat → Nat × List (String × Int) → Nat × List (String × Int)
  | 0, st => st
  | fuel + 1, st =>
    if st.2 = [] then st else drainLoop cleanEffect fuel (drainStep cleanEffect st)

/-- The number of drain-loop ticks in the 30-day budget. -/
def drainTicks : Nat := TIMEOUT / POLL_INTERVAL

/-! ## Admission control -/

/-- The guard of line 241: the count of qstat lines mentioning the user is
at least MAX_PARALLEL_JOBS, in which case the driver sleeps 5 seconds and
re-polls instead of submitting. -/
def admissionBlocked (ownQueueCount : Nat) : Bool :=
  decide (MAX_PARALLEL_JOBS ≤ ownQueueCount)

/-- The states reachable by the queue count of the jobs this driver has in
flight: initially zero; the driver may submit one job only after observing
a poll in which the admission guard is not blocking; the engine may finish
a job at any time. The poll and the submit are adjacent driver steps with
no interleaved submission, since the driver is single-threaded. -/
inductive AdmissionReachable : Nat → Prop where
  | init : AdmissionReachable 0
  | submit (q : Nat) : AdmissionReachable q → admissionBlocked q = false →
      AdmissionReachable (q + 1)
  | finish (q : Nat) : AdmissionReachable (q + 1) → AdmissionReachable q

/-! ## The completion-flag protocol -/

/-- The completion flag written by the driver (line 333): a file named
runName_completion_flag placed in the parent of the run directory. -/
def completionFlagPath (runParent : FPath) (runName : String) : FPath :=
  runParent ++ [runName ++ "_completion_flag"]

/-- Events of one driver process run, as observed from main
(batch_submission_script.py lines 304-334). -/
inductive DriverEvent where
  | unzipBatch
  | runSubmitBatch
  | archiveRun (ok : Bool)
  | zipLogIntoArchive
  | touchFlag (p : FPath)
  | removeRunDir
  deriving DecidableEq, Repr

/-- The outcome of the paths of the try-body of main that the trace
depends on: whether a batch zip was found in the run directory, whether it
unzipped cleanly, whether submit_batch raised, and whether the final
make_archive succeeded. -/
structure DriverEnv where
  zipFound : Bool
  zipGood : Bool
  submitErr : Option PyErr
  archiveOk : Bool

/-- The events of the try-body of main (lines 304-322): no zip means
StopIteration before anything runs; a bad zip stops before submit_batch;
otherwise submit_batch runs, and any exception it raises is caught by the
generic handler, which changes nothing in the event trace. -/
def driverBodyTrace (env : DriverEnv) : List DriverEvent :=
  if ¬ env.zipFound then []
  else if ¬ env.zipGood then [DriverEvent.unzipBatch]
  else [DriverEvent.unzipBatch, DriverEvent.runSubmitBatch]

/-- The whole driver trace: the try-body, then the finally block of lines
323-334, which runs on every path: attempt the archive (recording whether
it succeeded), fold the log into the archive, touch the completion flag,
and remove the run directory. The log-zipping step is modelled as never
raising. -/
def driverMainTrace (env : DriverEnv) (runParent : FPath)
    (runName : String) : List DriverEvent :=
  driverBodyTrace env ++
    [DriverEvent.archiveRun env.archiveOk, DriverEvent.zipLogIntoArchive,
     DriverEvent.touchFlag (completionFlagPath runParent runName),
     DriverEvent.removeRunDir]

/-- Recursive core of wait_for_completion (batch_submit.py lines 109-132):
poll the existence of the flag once per tick until it is seen or the
budget runs out, returning the tick at which it was first seen. -/
def waitForCompletionGo (polls : Nat → Bool) : Nat → Nat → Option Nat
  | 0, _ => none
  | fuel + 1, k => if polls k then some k else waitForCompletionGo polls fuel (k + 1)

/-- Model of wait_for_completion: the flag is detected by existence alone
(the poll oracle returns whether the flag file exists at that tick; no
content is ever read); a timeout exits the controller with status 1. -/
def waitForCompletion (polls : Nat → Bool) (timeoutTicks : Nat) : Option Nat :=
  waitForCompletionGo polls timeoutTicks 0

/-- Events of the retrieval tail of the controller main
(batch_submit.py lines 190-221). -/
inductive CtrlEvent where
  | getArchive
  | removeRemoteZip
  | removeRemoteFlag
  | exitFailure
  deriving DecidableEq, Repr

/-- The retrieval tail of the controller main: wait for the completion
flag; on timeout exit with failure and retrieve nothing; once the flag is
seen, transfer the result archive, then remove the remote archive and
then the remote flag file. -/
def controllerRetrieveTrace (polls : Nat → Bool) (timeoutTicks : Nat) :
    List CtrlEvent :=
  match waitForCompletion polls timeoutTicks with
  | none => [CtrlEvent.exitFailure]
  | some _ =>
    [CtrlEvent.getArchive, CtrlEvent.removeRemoteZip, CtrlEvent.removeRemoteFlag]

/-! ### Lemmas about the filesystem operations -/

theorem isDir_iff {fs : Fs} {p : FPath} :
    isDir fs p ↔ ∃ q ∈ fs, p <+: q ∧ p ≠ q := by
  unfold isDir
  rw [Finset.card_pos, Finset.filter_nonempty_iff]

theorem existsUnder_iff {fs : Fs} {p : FPath} :
    existsUnder fs p ↔ ∃ q ∈ fs, p <+: q := by
  unfold existsUnder
  rw [Finset.card_pos, Finset.filter_nonempty_iff]

theorem prefix_append_drop {s x : FPath} (h : s <+: x) :
    s ++ x.drop s.length = x := by
  obtain ⟨t, rfl⟩ := h
  rw [List.drop_left]

theorem mem_of_mem_safe_remove {fs : Fs} {p x : FPath}
    (hx : x ∈ safe_remove fs p) : x ∈ fs := by
  unfold safe_remove at hx
  by_cases hdir : isDir fs p
  · rw [if_pos hdir] at hx
    exact (Finset.mem_filter.mp hx).1
  · rw [if_neg hdir] at hx
    exact Finset.mem_of_mem_erase hx

theorem not_prefix_of_mem_safe_remove {fs : Fs} {p x : FPath}
    (hx : x ∈ safe_remove fs p) : ¬ p <+: x := by
  unfold safe_remove at hx
  by_cases hdir : isDir fs p
  · rw [if_pos hdir] at hx
    have := (Finset.mem_filter.mp hx).2
    simpa using this
  · rw [if_neg hdir] at hx
    intro hpx
    have hxfs : x ∈ fs := Finset.mem_of_mem_erase hx
    have hxp : x ≠ p := Finset.ne_of_mem_erase hx
    exact hdir (isDir_iff.mpr ⟨x, hxfs, hpx, fun hpeq => hxp hpeq.symm⟩)

theorem safe_remove_eq_of_absent {fs : Fs} {p : FPath}
    (h : ∀ x ∈ fs, ¬ p <+: x) : safe_remove fs p = fs := by
  have hdir : ¬ isDir fs p := by
    intro hd
    obtain ⟨x, hx, hpx, -⟩ := isDir_iff.mp hd
    exact h x hx hpx
  unfold safe_remove
  rw [if_neg hdir]
  exact Finset.erase_eq_of_not_mem (fun hp => h p hp (List.prefix_refl p))

theorem safe_move_eq_of_absent {fs : Fs} {s d : FPath}
    (h : ∀ x ∈ fs, ¬ s <+: x) : safe_move fs s d = fs := by
  have hex : ¬ existsUnder fs s := by
    intro hd
    obtain ⟨x, hx, hsx⟩ := existsUnder_iff.mp hd
    exact h x hx hsx
  unfold safe_move
  rw [if_neg hex]

/-- Moving a path onto itself leaves the filesystem unchanged. -/
theorem safe_move_self (fs : Fs) (s : FPath) : safe_move fs s s = fs := by
  unfold safe_move
  by_cases hex : existsUnder fs s
  · rw [if_pos hex]
    have hid : ∀ x ∈ fs, moveMap s s x = x := by
      intro x _
      unfold moveMap
      by_cases hp : s <+: x
      · rw [if_pos hp]
        exact prefix_append_drop hp
      · rw [if_neg hp]
    calc fs.image (moveMap s s) = fs.image id := Finset.image_congr (fun x hx => hid x hx)
      _ = fs := Finset.image_id
  · rw [if_neg hex]

theorem mem_safe_move_cases {fs : Fs} {s d x : FPath}
    (hx : x ∈ safe_move fs s d) :
    (x ∈ fs ∧ ¬ s <+: x) ∨ (∃ y ∈ fs, s <+: y ∧ x = d ++ y.drop s.length) := by
  unfold safe_move at hx
  by_cases hex : existsUnder fs s
  · rw [if_pos hex] at hx
    obtain ⟨y, hy, hmap⟩ := Finset.mem_image.mp hx
    unfold moveMap at hmap
    by_cases hsy : s <+: y
    · right
      exact ⟨y, hy, hsy, by rw [← hmap, if_pos hsy]⟩
    · left
      rw [← hmap, if_neg hsy]
      exact ⟨hy, hsy⟩
  · rw [if_neg hex] at hx
    left
    refine ⟨hx, fun hsx => hex (existsUnder_iff.mpr ⟨x, hx, hsx⟩)⟩

/-- Two prefixes of the same list are comparable. -/
theorem prefixTotal {a b c : FPath} (h1 : a <+: c) (h2 : b <+: c) :
    a <+: b ∨ b <+: a := by
  exact List.prefix_or_prefix_of_prefix h1 h2

/-- A prefix relation between two one-component extensions of the same
base path forces the added components to be equal. -/
theorem append_singleton_prefix {base : FPath} {a b : String}
    (h : base ++ [a] <+: base ++ [b]) : a = b := by
  have hlen : (base ++ [a]).length = (base ++ [b]).length := by simp
  have := h.eq_of_length hlen
  have := List.append_cancel_left this
  simpa using this

/-- If no file of `fs` extends `p`, then none extends an extension of `p`. -/
theorem not_prefix_extend {fs : Fs} {p p' : FPath}
    (h : ∀ x ∈ fs, ¬ p <+: x) (hpp : p <+: p') :
    ∀ x ∈ fs, ¬ p' <+: x :=
  fun x hx hp'x => h x hx (hpp.trans hp'x)

/-- After moving `s` to a distinct same-depth destination, no remaining
file extends `s`. -/
theorem safe_move_clears_src {fs : Fs} {s d : FPath}
    (hlen : s.length = d.length) (hne : s ≠ d) :
    ∀ x ∈ safe_move fs s d, ¬ s <+: x := by
  intro x hx hsx
  rcases mem_safe_move_cases hx with ⟨-, hns⟩ | ⟨y, -, -, rfl⟩
  · exact hns hsx
  · have hd : d <+: d ++ y.drop s.length := ⟨y.drop s.length, rfl⟩
    rcases prefixTotal hsx hd with hsd | hds
    · exact hne (hsd.eq_of_length hlen)
    · exact hne (hds.eq_of_length hlen.symm).symm

/-- Anything surviving clean_job_removals was already present. -/
theorem mem_of_mem_clean_job_removals {fs : Fs} {job x : FPath}
    (hx : x ∈ clean_job_removals fs job) : x ∈ fs := by
  unfold clean_job_removals at hx
  exact mem_of_mem_safe_remove
    (mem_of_mem_safe_remove (mem_of_mem_safe_remove (mem_of_mem_safe_remove hx)))

/-- After clean_job_removals, no file extends the input_files directory. -/
theorem clean_job_removals_no_input_files {fs : Fs} {job : FPath} :
    ∀ x ∈ clean_job_removals fs job, ¬ (job ++ ["input_files"]) <+: x := by
  intro x hx
  unfold clean_job_removals at hx
  exact not_prefix_of_mem_safe_remove
    (mem_of_mem_safe_remove (mem_of_mem_safe_remove (mem_of_mem_safe_remove hx)))

/-- After clean_job_removals, no file extends the executable copy. -/
theorem clean_job_removals_no_exec {fs : Fs} {job : FPath} :
    ∀ x ∈ clean_job_removals fs job, ¬ (job ++ [EXEC_NAME]) <+: x := by
  intro x hx
  unfold clean_job_removals at hx
  exact not_prefix_of_mem_safe_remove
    (mem_of_mem_safe_remove (mem_of_mem_safe_remove hx))

/-- After clean_job_removals, no file extends the submission script. -/
theorem clean_job_removals_no_script {fs : Fs} {job : FPath} :
    ∀ x ∈ clean_job_removals fs job, ¬ (job ++ ["job_submission_script.sh"]) <+: x := by
  intro x hx
  unfold clean_job_removals at hx
  exact not_prefix_of_mem_safe_remove (mem_of_mem_safe_remove hx)

/-- After clean_job_removals, no file extends the large lammps log. -/
theorem clean_job_removals_no_lammps {fs : Fs} {job : FPath} :
    ∀ x ∈ clean_job_removals fs job, ¬ (job ++ ["output_files", "lammps.log"]) <+: x := by
  intro x hx
  unfold clean_job_removals at hx
  exact not_prefix_of_mem_safe_remove hx

/-- When none of the four scratch artifacts is present, the deletion pass
changes nothing. -/
theorem clean_job_removals_eq (fs : Fs) (job : FPath)
    (h3 : ∀ x ∈ fs, ¬ (job ++ ["input_files"]) <+: x)
    (h4 : ∀ x ∈ fs, ¬ (job ++ [EXEC_NAME]) <+: x)
    (h5 : ∀ x ∈ fs, ¬ (job ++ ["job_submission_script.sh"]) <+: x)
    (h6 : ∀ x ∈ fs, ¬ (job ++ ["output_files", "lammps.log"]) <+: x) :
    clean_job_removals fs job = fs := by
  unfold clean_job_removals
  rw [safe_remove_eq_of_absent h3, safe_remove_eq_of_absent h4,
    safe_remove_eq_of_absent h5, safe_remove_eq_of_absent h6]

/-- After the relocation pass with a one-component qsub-output path that is
not qsub.log itself, no file extends the source of the qsub-log move. -/
theorem clean_job_moves_no_src {fs : Fs} {job : FPath} {n : String}
    (hn : n ≠ "qsub.log") :
    ∀ x ∈ clean_job_moves fs job (some (job ++ [n])), ¬ (job ++ [n]) <+: x := by
  intro x hx
  unfold clean_job_moves at hx
  refine safe_move_clears_src ?_ ?_ x hx
  · simp
  · intro he
    have hcanc := List.append_cancel_left he
    simp only [List.cons.injEq, and_true] at hcanc
    exact hn hcanc

/-- When the relocation sources are no longer present, the relocation pass
changes nothing. -/
theorem clean_job_moves_eq (G : Fs) (job : FPath) (qsubOutput : Option FPath)
    (hq : ∀ p ∈ qsubOutput, ∃ n, p = job ++ [n])
    (hsrc : ∀ x ∈ G, ¬ (job ++ ["input_files", "bss_parameters.txt"]) <+: x)
    (hqsrc : ∀ p ∈ qsubOutput, p ≠ job ++ ["qsub.log"] → ∀ x ∈ G, ¬ p <+: x) :
    clean_job_moves G job qsubOutput = G := by
  have hmv1 : safe_move G (job ++ ["input_files", "bss_parameters.txt"])
      (job ++ ["bss_parameters.txt"]) = G :=
    safe_move_eq_of_absent hsrc
  cases qsubOutput with
  | none =>
    simp only [clean_job_moves]
    exact hmv1
  | some qp =>
    obtain ⟨n, rfl⟩ := hq qp rfl
    simp only [clean_job_moves]
    rw [hmv1]
    by_cases hn : n = "qsub.log"
    · subst hn
      exact safe_move_self G _
    · refine safe_move_eq_of_absent ?_
      exact hqsrc (job ++ [n]) rfl
        (fun he => hn (by simpa using List.append_cancel_left he))

/-- C10: for every filesystem state, job directory and qsub-output file
(the cleanup sweep always passes a direct child of the job directory, or
none), running clean_job twice produces the same filesystem state as
running it once; removing or moving an already-absent artifact is a
silent no-op in safe_remove and safe_move, never an error. -/
theorem clean_job_idempotent (fs : Fs) (job : FPath) (qsubOutput : Option FPath)
    (hq : ∀ p ∈ qsubOutput, ∃ n, p = job ++ [n]) :
    clean_job (clean_job fs job qsubOutput) job qsubOutput =
      clean_job fs job qsubOutput := by
  have key : ∀ G : Fs,
      (∀ x ∈ G, ¬ (job ++ ["input_files"]) <+: x) →
      (∀ x ∈ G, ¬ (job ++ [EXEC_NAME]) <+: x) →
      (∀ x ∈ G, ¬ (job ++ ["job_submission_script.sh"]) <+: x) →
      (∀ x ∈ G, ¬ (job ++ ["output_files", "lammps.log"]) <+: x) →
      (∀ p ∈ qsubOutput, p ≠ job ++ ["qsub.log"] → ∀ x ∈ G, ¬ p <+: x) →
      clean_job G job qsubOutput = G := by
    intro G h3 h4 h5 h6 hqsrc
    have hsrc : ∀ x ∈ G, ¬ (job ++ ["input_files", "bss_parameters.txt"]) <+: x :=
      not_prefix_extend h3 ⟨["bss_parameters.txt"], by simp⟩
    have hmoves := clean_job_moves_eq G job qsubOutput hq hsrc hqsrc
    show clean_job_removals (clean_job_moves G job qsubOutput) job = G
    rw [hmoves]
    exact clean_job_removals_eq G job h3 h4 h5 h6
  refine key (clean_job fs job qsubOutput) ?_ ?_ ?_ ?_ ?_
  · intro x hx
    exact clean_job_removals_no_input_files x hx
  · intro x hx
    exact clean_job_removals_no_exec x hx
  · intro x hx
    exact clean_job_removals_no_script x hx
  · intro x hx
    exact clean_job_removals_no_lammps x hx
  · intro p hp hpne x hx
    obtain ⟨n, rfl⟩ := hq p hp
    have hn : n ≠ "qsub.log" := by
      intro hcon
      exact hpne (by rw [hcon])
    have hx2 : x ∈ clean_job_moves fs job qsubOutput :=
      mem_of_mem_clean_job_removals hx
    have hqs : qsubOutput = some (job ++ [n]) := hp
    rw [hqs] at hx2
    exact clean_job_moves_no_src hn x hx2

/-- Witness for C10 at a concrete job directory: the qsub output file is the
direct child b_j1.o7 of the job directory, and clean_job applied twice equals
clean_job applied once. -/
theorem clean_job_idempotent_witness :
    (∀ p ∈ (some (["jobs", "j1", "b_j1.o7"] : FPath) : Option FPath),
      ∃ n : String, p = ["jobs", "j1"] ++ [n]) ∧
    clean_job
      (clean_job
        ({["jobs", "j1", "input_files", "bss_parameters.txt"],
          ["jobs", "j1", "b_j1.o7"],
          ["jobs", "j1", "output_files", "result.txt"]} : Fs)
        ["jobs", "j1"] (some ["jobs", "j1", "b_j1.o7"]))
      ["jobs", "j1"] (some ["jobs", "j1", "b_j1.o7"]) =
    clean_job
      ({["jobs", "j1", "input_files", "bss_parameters.txt"],
        ["jobs", "j1", "b_j1.o7"],
        ["jobs", "j1", "output_files", "result.txt"]} : Fs)
      ["jobs", "j1"] (some ["jobs", "j1", "b_j1.o7"]) := by
  refine ⟨?_, ?_⟩
  · intro p hp
    refine ⟨"b_j1.o7", ?_⟩
    simp at hp
    exact hp.symm
  · refine clean_job_idempotent _ ["jobs", "j1"] (some ["jobs", "j1", "b_j1.o7"]) ?_
    intro p hp
    refine ⟨"b_j1.o7", ?_⟩
    simp at hp
    exact hp.symm

/-- C7 counterexample: a queue-status line with too few columns makes
import_qstat raise, and the driver run aborts with exit status 1 through
the generic exception handler, refuting the sentence that a queue-status
parse failure never aborts the batch run. -/
theorem qstatParseFailureNeverAborts_false :
    importQstat ["12345 garbage"] = .error .indexError ∧
    qstatPollOutcome ["12345 garbage"] = .abortedExit1 :=
  ⟨rfl, rfl⟩

/-- C7 (amended): when the queue-status output cannot be parsed into the
expected columns, the exception propagates uncaught to the generic handler
of the driver, which terminates the batch run with exit status 1; there is
no retry on the next poll cycle. -/
theorem qstatParseFailureAborts (rawLines : List String) (e : PyErr)
    (h : importQstat rawLines = .error e) :
    qstatPollOutcome rawLines = .abortedExit1 := by
  unfold qstatPollOutcome
  rw [h]

/-- Witness for the amended C7 theorem at a concrete malformed snapshot. -/
theorem qstatParseFailureAborts_witness :
    qstatPollOutcome ["99 short line"] = .abortedExit1 :=
  qstatParseFailureAborts ["99 short line"] .indexError rfl

theorem pyDictInsert_ne_nil (d : List (String × Int)) (kv : String × Int) :
    pyDictInsert d kv ≠ [] := by
  unfold pyDictInsert
  by_cases h : d.any (fun p => p.1 = kv.1)
  · rw [if_pos h]
    intro hmap
    rw [List.map_eq_nil_iff] at hmap
    subst hmap
    simp at h
  · rw [if_neg h]
    simp

theorem foldl_pyDictInsert_ne_nil (l : List (String × Int)) :
    ∀ init : List (String × Int), init ≠ [] ∨ l ≠ [] →
      l.foldl pyDictInsert init ≠ [] := by
  induction l with
  | nil =>
    intro init h
    simpa using h.resolve_right (by simp)
  | cons kv rest ih =>
    intro init _
    rw [List.foldl_cons]
    exact ih (pyDictInsert init kv) (Or.inl (pyDictInsert_ne_nil init kv))

/-- A snapshot entry in the Eqw state makes the errored dict nonempty. -/
theorem errored_jobs_ne_nil {snap : List QstatEntry}
    (h : ∃ e ∈ snap, e.status = "Eqw") : errored_jobs snap ≠ [] := by
  unfold errored_jobs
  apply foldl_pyDictInsert_ne_nil
  right
  obtain ⟨e, he, hst⟩ := h
  intro hnil
  have hme : (e.name, e.jobId) ∈
      (snap.filter (fun e => e.status = "Eqw")).map (fun e => (e.name, e.jobId)) :=
    List.mem_map_of_mem _ (List.mem_filter.mpr ⟨he, by simp [hst]⟩)
  rw [hnil] at hme
  exact absurd hme (List.not_mem_nil _)

/-- C1: the claim describes the intended error-isolation behaviour, but the
code unpacks (name, id) pairs from errored_jobs.values() instead of
errored_jobs.items(); the values are ints, so whenever the queue snapshot
holds any job in the Eqw error state, the cleanup sweep raises TypeError on
the first loop iteration instead of logging, cancelling and removing only
that entry, and the exception aborts the whole batch run through the
generic handler of main. -/
theorem cleanSweepEqwRaises (iterOrder : Fs → FPath → List String) (fs : Fs)
    (submitted : List (String × Int)) (snap1 snap2 : List QstatEntry)
    (endTime : Int) (jobsPath : FPath) (batchDesc : String) (ignoreTime : Bool)
    (h : ∃ e ∈ snap2, e.status = "Eqw") :
    clean_finished_jobs iterOrder fs submitted snap1 snap2 endTime jobsPath
      batchDesc ignoreTime = .error .typeError := by
  have hne := errored_jobs_ne_nil h
  have hfalse : (errored_jobs snap2).isEmpty = false := by
    cases herr : errored_jobs snap2 with
    | nil => exact absurd herr hne
    | cons a t => rfl
  unfold clean_finished_jobs
  rw [hfalse]
  simp

/-- Witness for C1 at a concrete snapshot holding one Eqw entry. -/
theorem cleanSweepEqwRaises_witness :
    (∃ e ∈ [QstatEntry.mk 7 "b_j1" "Eqw" "01/12/2024" "12:00:00"],
      e.status = "Eqw") ∧
    clean_finished_jobs (fun _ _ => []) ∅ [("b_j1", 0)] []
      [QstatEntry.mk 7 "b_j1" "Eqw" "01/12/2024" "12:00:00"]
      20 ["run", "jobs"] "b" false = .error .typeError :=
  ⟨by decide, cleanSweepEqwRaises (fun _ _ => []) ∅ [("b_j1", 0)] []
    [QstatEntry.mk 7 "b_j1" "Eqw" "01/12/2024" "12:00:00"]
    20 ["run", "jobs"] "b" false (by decide)⟩

/-- C8: in a cleanup sweep with the assumption window enabled, every job
classified as finished has a tracked entry whose age is at least
ASSUMPTION_TIME (the code requires strictly more), and the finished set is
exactly the window-confirmed tracked names minus the names in the queue
snapshot; with ignore_time, every tracked name is eligible and the finished
set is all tracked names minus the snapshot names. -/
theorem finishedClassification (submitted : List (String × Int))
    (endTime : Int) (snap : List QstatEntry) (j : String)
    (hj : j ∈ finished_jobs submitted endTime false snap) :
    (∃ t : Int, (j, t) ∈ submitted ∧ ASSUMPTION_TIME ≤ endTime - t) ∧
    (finished_jobs submitted endTime false snap).toFinset =
      (confirmed_jobs submitted endTime false).toFinset \
        (current_jobs snap).toFinset ∧
    (finished_jobs submitted endTime true snap).toFinset =
      (submitted.map Prod.fst).toFinset \ (current_jobs snap).toFinset := by
  refine ⟨?_, ?_, ?_⟩
  · unfold finished_jobs at hj
    have hconf := (List.mem_filter.mp hj).1
    unfold confirmed_jobs at hconf
    rw [if_pos (by simp)] at hconf
    obtain ⟨jt, hjtmem, hfst⟩ := List.mem_map.mp hconf
    have hjt := List.mem_filter.mp hjtmem
    refine ⟨jt.2, ?_, ?_⟩
    · rw [← hfst]
      exact hjt.1
    · have := of_decide_eq_true hjt.2
      omega
  · ext x
    simp [finished_jobs, List.mem_filter]
  · ext x
    simp [finished_jobs, confirmed_jobs, List.mem_filter]

/-- Witness for C8 at a concrete tracked dict and snapshot. -/
theorem finishedClassification_witness :
    "b_j1" ∈ finished_jobs [("b_j1", 0), ("b_j2", 95)] 100 false [] ∧
    (∃ t : Int, ("b_j1", t) ∈ [(("b_j1" : String), (0 : Int)), ("b_j2", 95)] ∧
      ASSUMPTION_TIME ≤ 100 - t) :=
  ⟨by decide,
    (finishedClassification [("b_j1", 0), ("b_j2", 95)] 100 [] "b_j1" (by decide)).1⟩

/-- Inserting a key into the tracked dict always leaves the key present. -/
theorem pyDictInsert_key_any (t : List (String × Int)) (k : String) (v : Int) :
    (pyDictInsert t (k, v)).any (fun p => p.1 = k) = true := by
  unfold pyDictInsert
  by_cases h : t.any (fun p => p.1 = k)
  · rw [if_pos h]
    rw [List.any_eq_true] at h ⊢
    obtain ⟨p0, hp0, hkey⟩ := h
    have hk : p0.1 = k := of_decide_eq_true hkey
    refine ⟨(p0.1, v), ?_, by simpa using hk⟩
    have := List.mem_map_of_mem
      (fun p => if p.1 = (k, v).1 then (p.1, (k, v).2) else p) hp0
    simpa [hk] using this
  · rw [if_neg h]
    rw [List.any_eq_true]
    exact ⟨(k, v), by simp, by simp⟩

/-- C2 counterexample: a ten-job run in which every qsub response starts
with "Unable to run job:"; every job is logged as unable yet every job
still receives a tracked entry, refuting the sentence that a rejected job
does not create a SubmittedJob entry and never appears in the tracked
set. -/
theorem submitRejectionNotTracked_false :
    (submitBatchLoop cenvAllUnable "b" jobs10).err = none ∧
    (submitBatchLoop cenvAllUnable "b" jobs10).unableLogged = jobs10 ∧
    (submitBatchLoop cenvAllUnable "b" jobs10).tracked.map Prod.fst =
      jobs10.map (fun j => "b_" ++ j) :=
  ⟨rfl, rfl, rfl⟩

/-- C2 (amended): when the first line of the submit response starts with
the unable-to-run marker, the driver logs the error but still creates the
SubmittedJob tracking entry for the job, exactly as for a successful
submission: the queue name is always present in the tracked dict right
after the submission step. -/
theorem unableResponseStillTracked (d j : String) (now : Int)
    (t : List (String × Int)) (m0 : String)
    (hm : pyStartsWith m0 unableMarker = true) :
    submitLogsUnable m0 = true ∧
    (submitTrack d j now t).any (fun p => p.1 = d ++ "_" ++ j) = true := by
  constructor
  · unfold submitLogsUnable
    exact hm
  · unfold submitTrack
    exact pyDictInsert_key_any t _ now

/-- Witness for the amended C2 theorem at a concrete rejection message. -/
theorem unableResponseStillTracked_witness :
    pyStartsWith "Unable to run job: all queues full" unableMarker = true ∧
    (submitLogsUnable "Unable to run job: all queues full" = true ∧
      (submitTrack "b" "j1" 3 []).any (fun p => p.1 = "b" ++ "_" ++ "j1") = true) :=
  ⟨by decide, unableResponseStillTracked "b" "j1" 3 [] _ (by decide)⟩

/-- C4 counterexample: a batch of one job. The loop submits that job (its
qsub is issued and its tracking entry created) and only then raises
ZeroDivisionError at the progress check, refuting the sentence that no job
of a small batch is ever submitted. -/
theorem smallBatchNoJobSubmitted_false :
    submitBatchLoop cenvOk "b" ["j1"] =
      ⟨["j1"], [], [("b_j1", 0)], [], 0, some .zeroDivisionError⟩ ∧
    (submitBatchLoop cenvOk "b" ["j1"]).qsubbed ≠ [] :=
  ⟨rfl, by decide⟩

/-- C4 (amended): for a batch of at least one and fewer than ten job
directories, progress_check = num_jobs // 10 is zero, and the first
iteration of the submission loop issues qsub for the first job, tracks it,
and then raises an uncaught ZeroDivisionError at counter % progress_check,
so exactly the first job is submitted and the run terminates through the
generic exception handler of the driver. -/
theorem smallBatchZeroDivAfterFirstSubmit (env : LoopEnv) (d j : String)
    (rest : List String) (hlen : rest.length ≤ 8)
    (m0 : String) (ms : List String) (henv : env.qsubMessage j = m0 :: ms) :
    submitBatchLoop env d (j :: rest) =
      ⟨[j], if submitLogsUnable m0 then [j] else [], [(d ++ "_" ++ j, 0)], [],
        0, some .zeroDivisionError⟩ := by
  have hden : (j :: rest).length / 10 = 0 := by
    apply Nat.div_eq_of_lt
    simp only [List.length_cons]
    omega
  unfold submitBatchLoop
  unfold submitBatchLoopGo
  rw [henv]
  simp only [CLEANING_INTERVAL, Nat.zero_mod, ne_eq, not_true_eq_false,
    if_false, ite_not]
  rw [if_pos hden]
  by_cases hlog : submitLogsUnable m0
  · simp [hlog, submitTrack, pyDictInsert]
  · simp [hlog, submitTrack, pyDictInsert]

/-- Witness for the amended C4 theorem at a concrete one-job batch. -/
theorem smallBatchZeroDivAfterFirstSubmit_witness :
    cenvOk.qsubMessage "j1" = "Your job has been submitted" :: [] ∧
    ([] : List String).length ≤ 8 ∧
    submitBatchLoop cenvOk "b" ["j1"] =
      ⟨["j1"], if submitLogsUnable "Your job has been submitted" then ["j1"] else [],
        [("b" ++ "_" ++ "j1", 0)], [], 0, some .zeroDivisionError⟩ :=
  ⟨rfl, by decide,
    smallBatchZeroDivAfterFirstSubmit cenvOk "b" "j1" [] (by decide) _ _ rfl⟩

/-- C9: the claim says the cleanup sweep runs at a fixed cadence of once
every five submissions; line 249 tests the truthiness of
counter % cleaning_interval, so the sweep actually runs whenever the
counter is not a multiple of five: in a twelve-job run it runs at counters
1, 2, 3, 4, 6, 7, 8, 9 and 11 — four out of every five iterations, at the
second submission already, and never at a multiple-of-five counter. -/
theorem cleaningCadenceInverted :
    (submitBatchLoop cenvOk "b" jobs12).cleanedAt = [1, 2, 3, 4, 6, 7, 8, 9, 11] ∧
    1 ∈ (submitBatchLoop cenvOk "b" jobs12).cleanedAt ∧
    5 ∉ (submitBatchLoop cenvOk "b" jobs12).cleanedAt ∧
    (submitBatchLoop cenvOk "b" jobs12).err = none :=
  ⟨rfl, by decide, by decide, rfl⟩

/-- C3: after the submission loop the counter enters the drain loop at
num_jobs (12 in the concrete run conjoined below), which exceeds
cleaning_interval, and the body only ever increments it, so the
counter == cleaning_interval test never fires: the drain loop never
invokes the cleanup sweep, and a non-empty tracked set survives every tick
of the 30-day budget unchanged instead of draining to empty before the
timeout. -/
theorem drainLoopNeverCleans
    (cleanEffect : List (String × Int) → List (String × Int))
    (counter : Nat) (tracked : List (String × Int)) (fuel : Nat)
    (hc : CLEANING_INTERVAL < counter) (hne : tracked ≠ []) :
    (submitBatchLoop cenvOk "b" jobs12).counter = 12 ∧
    drainLoop cleanEffect fuel (counter, tracked) = (counter + fuel, tracked) := by
  refine ⟨rfl, ?_⟩
  induction fuel generalizing counter with
  | zero => simp [drainLoop]
  | succ n ih =>
    unfold drainLoop
    rw [if_neg hne]
    unfold drainStep
    simp only
    rw [if_neg (by omega : ¬ counter = CLEANING_INTERVAL)]
    rw [ih (counter + 1) (by omega)]
    have harith : counter + 1 + n = counter + (n + 1) := by omega
    rw [harith]

/-- Witness for C3: from counter 10 with one tracked job, three drain
ticks change nothing but the counter. -/
theorem drainLoopNeverCleans_witness :
    drainLoop (fun _ => []) 3 (10, [("a", 1)]) = (13, [("a", 1)]) :=
  (drainLoopNeverCleans (fun _ => []) 10 [("a", 1)] 3 (by decide) (by decide)).2

/-- C5: the driver proceeds past the admission guard only after a poll in
which its own queue-entry count is below MAX_PARALLEL_JOBS (otherwise it
sleeps POLL_INTERVAL seconds and re-polls), so along every reachable
schedule of submissions and completions the count of in-flight jobs never
exceeds MAX_PARALLEL_JOBS — in particular it never exceeds the cap by more
than one in-flight submission. -/
theorem admissionInvariant (q : Nat) (h : AdmissionReachable q) :
    q ≤ MAX_PARALLEL_JOBS := by
  induction h with
  | init => simp
  | submit q hq hblocked ih =>
    have hlt : ¬ MAX_PARALLEL_JOBS ≤ q := by
      simpa [admissionBlocked] using hblocked
    omega
  | finish q hq ih => omega

/-- Witness for C5: one submission from the empty queue is admitted and
satisfies the invariant. -/
theorem admissionInvariant_witness : (1 : Nat) ≤ MAX_PARALLEL_JOBS :=
  admissionInvariant 1 (.submit 0 .init (by decide))

/-- C6 counterexample: a run in which the final make_archive raises. The
driver still touches the completion flag in its inner finally block, so the
flag is created although the run directory was never archived, refuting
the sentence that the flag is created only after the jobs finished and the
archive was produced. -/
theorem completionFlagOnlyAfterArchive_false :
    DriverEvent.touchFlag (completionFlagPath ["home"] "run_1") ∈
      driverMainTrace ⟨true, true, none, false⟩ ["home"] "run_1" ∧
    DriverEvent.archiveRun true ∉
      driverMainTrace ⟨true, true, none, false⟩ ["home"] "run_1" := by
  constructor
  · decide
  · decide

/-- C6 (amended): the driver touches the flag file named
runName_completion_flag, placed adjacent to the run directory, exactly
once per run, in its finally block after the archive attempt — regardless
of whether the jobs ran or the archive succeeded; the controller detects
the flag by existence alone through its poll loop and, once the flag is
seen, deletes it only after the successful retrieval of the archive. -/
theorem completionFlagProtocol (env : DriverEnv) (runParent : FPath)
    (runName : String) (polls : Nat → Bool) (t k : Nat)
    (hk : waitForCompletion polls t = some k) :
    (driverMainTrace env runParent runName).count
      (DriverEvent.touchFlag (completionFlagPath runParent runName)) = 1 ∧
    (∃ pre, driverMainTrace env runParent runName =
        pre ++ [DriverEvent.archiveRun env.archiveOk,
          DriverEvent.zipLogIntoArchive,
          DriverEvent.touchFlag (completionFlagPath runParent runName),
          DriverEvent.removeRunDir] ∧
      ∀ e ∈ pre, ∀ p, e ≠ DriverEvent.touchFlag p) ∧
    controllerRetrieveTrace polls t =
      [CtrlEvent.getArchive, CtrlEvent.removeRemoteZip,
        CtrlEvent.removeRemoteFlag] := by
  obtain ⟨zf, zg, se, ao⟩ := env
  refine ⟨?_, ⟨driverBodyTrace ⟨zf, zg, se, ao⟩, rfl, ?_⟩, ?_⟩
  · cases zf <;> cases zg <;>
      simp [driverMainTrace, driverBodyTrace, List.count_append,
        List.count_cons, List.count_nil]
  · cases zf <;> cases zg <;> simp [driverBodyTrace]
  · unfold controllerRetrieveTrace
    rw [hk]

/-- Witness for the amended C6 theorem: a poll oracle that sees the flag
at the first tick leads the controller to retrieve the archive and then
delete the flag. -/
theorem completionFlagProtocol_witness :
    controllerRetrieveTrace (fun _ => true) 3 =
      [CtrlEvent.getArchive, CtrlEvent.removeRemoteZip,
        CtrlEvent.removeRemoteFlag] :=
  (completionFlagProtocol ⟨true, true, none, true⟩ ["home"] "run_1"
    (fun _ => true) 3 0 rfl).2.2

end BSS
